import Mathlib

/-!
Verification of the `lab` experiment build engine (`src/lab/experiment.py`)
against its natural-language specification.

The Python code is shallowly embedded: pure computations become Lean
functions, the filesystem becomes an abstract predicate on paths, fatal
`logging.critical` / `SystemExit` conditions become `Except.error`, and
Python's ordered containers become association lists with Python's
update-in-place semantics.
-/

namespace Lab

/-! ### Sharded run-directory assignment (`Experiment._set_run_dirs`) -/

/-- Python `str.zfill`: pad a string on the left with `'0'` to the given
width (strings already long enough are returned unchanged). -/
def zfill (width : Nat) (s : String) : String :=
  if width ≤ s.length then s
  else String.mk (List.replicate (width - s.length) '0') ++ s

/-- `run_number` from `Experiment._set_run_dirs`: `str(number).zfill(5)`. -/
def run_number (n : Nat) : String :=
  zfill 5 (toString n)

/-- `get_shard_dir` from `Experiment._set_run_dirs`:
`first_run = shard_size * (shard_number - 1) + 1`,
`last_run = shard_size * shard_number`,
`'runs-%s-%s' % (run_number(first_run), run_number(last_run))`. -/
def get_shard_dir (shard_size shard_number : Nat) : String :=
  "runs-" ++ run_number (shard_size * (shard_number - 1) + 1) ++ "-"
    ++ run_number (shard_size * shard_number)

/-- Modelled from the spec: `tools.divide_list` is not under `src/`; the spec
says "Shard k (1-indexed) contains runs `[(k-1)*shard_size+1, k*shard_size]`",
i.e. the run list is split into consecutive chunks of `size` elements. -/
def divide_list {α : Type} (xs : List α) (size : Nat) : List (List α) :=
  if h : size = 0 ∨ xs.length = 0 then []
  else xs.take size :: divide_list (xs.drop size) size
termination_by xs.length
decreasing_by
  push_neg at h
  simp only [List.length_drop]
  omega

/-- The inner loop of `Experiment._set_run_dirs`: for every run of one shard,
increment `current_run` and emit
`os.path.join(get_shard_dir(shard_number), run_number(current_run))`. -/
def set_run_dirs_shard {α : Type} (shard_size shard_number : Nat) :
    List α → Nat → List String
  | [], _ => []
  | _ :: rest, current_run =>
      (get_shard_dir shard_size shard_number ++ "/" ++ run_number (current_run + 1))
        :: set_run_dirs_shard shard_size shard_number rest (current_run + 1)

/-- The outer loop of `Experiment._set_run_dirs`: `enumerate(shards, start=1)`
with the global `current_run` counter threaded through. -/
def set_run_dirs_loop {α : Type} (shard_size : Nat) :
    List (List α) → Nat → Nat → List String
  | [], _, _ => []
  | shard :: rest, shard_number, current_run =>
      set_run_dirs_shard shard_size shard_number shard current_run
        ++ set_run_dirs_loop shard_size rest (shard_number + 1)
            (current_run + shard.length)

/-- `Experiment._set_run_dirs`: the list of relative run directories assigned
to `runs`, in order (`shards = tools.divide_list(self.runs, self.shard_size)`,
then the two nested loops starting at shard 1, run 0). -/
def set_run_dirs {α : Type} (shard_size : Nat) (runs : List α) : List String :=
  set_run_dirs_loop shard_size (divide_list runs shard_size) 1 0

theorem set_run_dirs_shard_length {α : Type} (S sn : Nat) (shard : List α)
    (cur : Nat) : (set_run_dirs_shard S sn shard cur).length = shard.length := by
  induction shard generalizing cur with
  | nil => rfl
  | cons a rest ih => simp [set_run_dirs_shard, ih]

theorem set_run_dirs_shard_get {α : Type} (S sn : Nat) (shard : List α) :
    ∀ (cur j : Nat), j < shard.length →
      (set_run_dirs_shard S sn shard cur)[j]?
        = some (get_shard_dir S sn ++ "/" ++ run_number (cur + j + 1)) := by
  induction shard with
  | nil => intro cur j h; simp at h
  | cons a rest ih =>
      intro cur j h
      cases j with
      | zero => simp [set_run_dirs_shard]
      | succ j =>
          have hj : j < rest.length := by simpa using h
          have := ih (cur + 1) j hj
          simpa [set_run_dirs_shard, Nat.add_assoc, Nat.add_comm,
            Nat.add_left_comm] using this

theorem set_run_dirs_loop_get {α : Type} (S : Nat) (hS : 0 < S) :
    ∀ (n : Nat) (xs : List α) (sn cur j : Nat), xs.length = n → j < n →
      (set_run_dirs_loop S (divide_list xs S) sn cur)[j]?
        = some (get_shard_dir S (sn + j / S) ++ "/" ++ run_number (cur + j + 1)) := by
  intro n
  induction n using Nat.strong_induction_on with
  | _ n ih =>
      intro xs sn cur j hlen hj
      rw [divide_list]
      rw [dif_neg (by omega)]
      simp only [set_run_dirs_loop]
      have htake : (xs.take S).length = min S xs.length := List.length_take ..
      by_cases hcase : j < (xs.take S).length
      · -- run j lies in the first shard
        have hjS : j < S := by omega
        rw [List.getElem?_append_left (by rw [set_run_dirs_shard_length]; exact hcase)]
        rw [set_run_dirs_shard_get S sn (xs.take S) cur j hcase]
        have hz : j / S = 0 := Nat.div_eq_of_lt hjS
        simp [hz]
      · -- run j lies in a later shard; recurse on the dropped list
        push_neg at hcase
        have hSlen : S < xs.length := by omega
        have htakeS : (xs.take S).length = S := by omega
        have hSj : S ≤ j := by omega
        rw [List.getElem?_append_right (by rw [set_run_dirs_shard_length]; omega)]
        rw [set_run_dirs_shard_length, htakeS]
        have hdrop : (xs.drop S).length = n - S := by
          simp [List.length_drop, hlen]
        have hrec := ih (n - S) (by omega) (xs.drop S) (sn + 1) (cur + S)
          (j - S) hdrop (by omega)
        rw [hrec]
        have hdiv : j / S = (j - S) / S + 1 := by
          rw [Nat.div_eq_sub_div hS hSj]
        have h1 : sn + 1 + (j - S) / S = sn + j / S := by omega
        have h2 : cur + S + (j - S) + 1 = cur + j + 1 := by omega
        rw [h1, h2]

/-- C1: with shard size `S > 0` and `N` runs added in order, the `k`-th run
(1-indexed, `1 ≤ k ≤ N`) is assigned the relative directory
`runs-<(⌈k/S⌉-1)*S+1>-<⌈k/S⌉*S>/<k>` with all three numbers zero-padded to
5 digits, where `⌈k/S⌉ = (k + S - 1) / S`. -/
theorem shard_assignment_correct (S N k : Nat) (hS : 0 < S) (hk : 1 ≤ k)
    (hkN : k ≤ N) :
    (set_run_dirs S (List.replicate N ()))[k - 1]?
      = some ("runs-" ++ run_number (((k + S - 1) / S - 1) * S + 1) ++ "-"
          ++ run_number (((k + S - 1) / S) * S) ++ "/" ++ run_number k) := by
  have hlen : (List.replicate N ()).length = N := List.length_replicate ..
  have h := set_run_dirs_loop_get S hS N (List.replicate N ()) 1 0 (k - 1)
    hlen (show k - 1 < N by omega)
  rw [set_run_dirs] at *
  rw [h]
  have hceil : (k + S - 1) / S = (k - 1) / S + 1 := by
    have : k + S - 1 = (k - 1) + S := by omega
    rw [this, Nat.add_div_right _ hS]
  rw [hceil]
  have h0 : 0 + (k - 1) + 1 = k := by omega
  rw [h0, get_shard_dir]
  have h1 : (k - 1) / S + 1 - 1 = (k - 1) / S := Nat.add_sub_cancel _ 1
  have h2 : 1 + (k - 1) / S - 1 = (k - 1) / S := Nat.add_sub_cancel_left 1 _
  rw [h1, h2, Nat.mul_comm S ((k - 1) / S), Nat.mul_comm S (1 + (k - 1) / S)]
  have h3 : (1 + (k - 1) / S) * S = ((k - 1) / S + 1) * S := by ring_nf
  rw [h3]

/-- Witness for C1: with shard size 100 and 250 runs, run 101 is assigned
`runs-00101-00200/00101`. -/
theorem shard_assignment_correct_witness :
    (set_run_dirs 100 (List.replicate 250 ()))[101 - 1]?
      = some ("runs-" ++ run_number (((101 + 100 - 1) / 100 - 1) * 100 + 1) ++ "-"
          ++ run_number (((101 + 100 - 1) / 100) * 100) ++ "/" ++ run_number 101) :=
  shard_assignment_correct 100 250 101 (by decide) (by decide) (by decide)

/-! ### Buildable data model (`_Buildable`) -/

/-- A resource binding, the tuple `(name, source, dest, required, symlink)`
stored by `_Buildable.add_resource`. -/
structure Resource where
  name : String
  source : String
  dest : String
  required : Bool
  symlink : Bool
deriving DecidableEq

/-- A synthesized file, the tuple `(name, dest, content)` stored by
`_Buildable.add_new_file`. -/
structure NewFile where
  name : String
  dest : String
  content : String
deriving DecidableEq

/-- `_Buildable.add_resource`: append the tuple unless an identical tuple is
already stored (`if not resource in self.resources`). -/
def add_resource (resources : List Resource) (r : Resource) : List Resource :=
  if r ∈ resources then resources else resources ++ [r]

/-- `_Buildable.add_new_file`: append the tuple unless an identical tuple is
already stored (`if not new_file in self.new_files`). -/
def add_new_file (new_files : List NewFile) (f : NewFile) : List NewFile :=
  if f ∈ new_files then new_files else new_files ++ [f]

theorem mem_add_resource (rs : List Resource) (r : Resource) :
    r ∈ add_resource rs r := by
  unfold add_resource
  split
  · assumption
  · simp

theorem mem_add_new_file (fs : List NewFile) (f : NewFile) :
    f ∈ add_new_file fs f := by
  unfold add_new_file
  split
  · assumption
  · simp

/-- C7: `add_resource` and `add_new_file` are idempotent under
exact-duplicate-tuple resubmission: a second call with the same tuple changes
nothing, and starting from a state not containing the tuple, two calls leave
exactly one stored entry. -/
theorem add_resource_add_new_file_idempotent (rs : List Resource) (r : Resource)
    (fs : List NewFile) (f : NewFile) :
    add_resource (add_resource rs r) r = add_resource rs r
    ∧ add_new_file (add_new_file fs f) f = add_new_file fs f
    ∧ (r ∉ rs → (add_resource (add_resource rs r) r).count r = 1)
    ∧ (f ∉ fs → (add_new_file (add_new_file fs f) f).count f = 1) := by
  have hr : add_resource (add_resource rs r) r = add_resource rs r := by
    unfold add_resource
    rw [if_pos]
    exact mem_add_resource rs r
  have hf : add_new_file (add_new_file fs f) f = add_new_file fs f := by
    unfold add_new_file
    rw [if_pos]
    exact mem_add_new_file fs f
  refine ⟨hr, hf, ?_, ?_⟩
  · intro hnot
    rw [hr]
    unfold add_resource
    rw [if_neg hnot, List.count_append]
    rw [List.count_eq_zero.mpr hnot]
    simp
  · intro hnot
    rw [hf]
    unfold add_new_file
    rw [if_neg hnot, List.count_append]
    rw [List.count_eq_zero.mpr hnot]
    simp

/-- Witness for C7: at a concrete resource, new file and empty stores, the
double-add leaves exactly one entry. -/
theorem add_resource_add_new_file_idempotent_witness :
    let r : Resource := ⟨"LAB", "scripts", "lab", true, false⟩
    let f : NewFile := ⟨"RUN_SCRIPT", "run", "echo"⟩
    add_resource (add_resource [] r) r = add_resource [] r
    ∧ add_new_file (add_new_file [] f) f = add_new_file [] f
    ∧ (add_resource (add_resource [] r) r).count r = 1
    ∧ (add_new_file (add_new_file [] f) f).count f = 1 := by
  have h := add_resource_add_new_file_idempotent []
    ⟨"LAB", "scripts", "lab", true, false⟩ [] ⟨"RUN_SCRIPT", "run", "echo"⟩
  exact ⟨h.1, h.2.1, h.2.2.1 (by simp), h.2.2.2 (by simp)⟩

/-! ### Ordered dictionaries (`OrderedDict` / CPython `dict`) -/

/-- `OrderedDict.__setitem__` (also CPython's insertion-ordered `dict`
assignment): updating an existing key replaces its value in place, keeping
its position; a new key is appended at the end. -/
def od_set {V : Type} (d : List (String × V)) (k : String) (v : V) :
    List (String × V) :=
  match d with
  | [] => [(k, v)]
  | (k', v') :: rest => if k' = k then (k, v) :: rest else (k', v') :: od_set rest k v

/-- Dictionary lookup (`d[k]` / `d.get(k)`). -/
def od_get {V : Type} (d : List (String × V)) (k : String) : Option V :=
  match d with
  | [] => none
  | (k', v') :: rest => if k' = k then some v' else od_get rest k

theorem od_set_keys {V : Type} (d : List (String × V)) (k : String) (v : V) :
    (od_set d k v).map Prod.fst
      = if k ∈ d.map Prod.fst then d.map Prod.fst else d.map Prod.fst ++ [k] := by
  induction d with
  | nil => simp [od_set]
  | cons p rest ih =>
      obtain ⟨k', v'⟩ := p
      by_cases hk : k' = k
      · subst hk
        simp [od_set]
      · simp only [od_set, if_neg hk, List.map_cons, ih]
        by_cases hmem : k ∈ rest.map Prod.fst
        · simp [hmem, Ne.symm hk]
        · simp [hmem, Ne.symm hk]

theorem od_get_set {V : Type} (d : List (String × V)) (k : String) (v : V) :
    od_get (od_set d k v) k = some v := by
  induction d with
  | nil => simp [od_set, od_get]
  | cons p rest ih =>
      obtain ⟨k', v'⟩ := p
      by_cases hk : k' = k
      · subst hk
        simp [od_set, od_get]
      · simp [od_set, od_get, hk, ih]

theorem od_mem_set_keys {V : Type} (d : List (String × V)) (k : String) (v : V) :
    k ∈ (od_set d k v).map Prod.fst := by
  rw [od_set_keys]
  by_cases h : k ∈ d.map Prod.fst
  · simpa [h] using h
  · simp [h]

/-! ### Python values and keyword arguments -/

/-- A Python value as it occurs in command kwargs and run properties.
Numeric literals are identified by their `repr` text; the embedded generator
only ever truth-tests the (boolean) `abort_on_failure` value. -/
inductive PyVal : Type
  | bool (b : Bool)
  | str (s : String)
  | numLit (lit : String)
deriving DecidableEq

/-- Python `repr` restricted to the values above. -/
def pyRepr : PyVal → String
  | .bool true => "True"
  | .bool false => "False"
  | .str s => "'" ++ s ++ "'"
  | .numLit lit => lit

/-- Python truthiness (`if value:`) restricted to the values above. -/
def pyTruthy : PyVal → Bool
  | .bool b => b
  | .str s => !s.isEmpty
  | .numLit lit => !(lit == "0" || lit == "0.0")

/-- Keyword arguments: a CPython dict, iterated in insertion order. -/
abbrev Kwargs := List (String × PyVal)

/-- A command value as stored by `Run.add_command`: the tuple
`(command, kwargs)`. -/
structure Command where
  argv : List String
  kwargs : Kwargs
deriving DecidableEq

/-- Python `name.replace(' ', '_')`: with a single-character pattern this is
a character-wise map. -/
def normalize_name (name : String) : String :=
  String.mk (name.data.map (fun ch => if ch = ' ' then '_' else ch))

/-- `Run.add_command`: asserts the argv list is non-empty, replaces every
space in the name with an underscore, and stores `(command, kwargs)` under
the normalized name in the run's `OrderedDict` of commands. -/
def add_command (commands : List (String × Command)) (name : String)
    (command : Command) : Except String (List (String × Command)) :=
  if command.argv = [] then
    Except.error ("Command " ++ name ++ " cannot be empty")
  else
    Except.ok (od_set commands (normalize_name name) command)

/-- C10: `add_command` stores the command under the given name with spaces
replaced by underscores; adding again under a name that normalizes to an
already-present key replaces that key's value in place, keeping its original
position in the ordered command map (it is not moved to the end). -/
theorem add_command_replace_in_place (cmds : List (String × Command))
    (name name' : String) (c c' : Command)
    (hn : normalize_name name' = normalize_name name)
    (d1 d2 : List (String × Command))
    (h1 : add_command cmds name c = Except.ok d1)
    (h2 : add_command d1 name' c' = Except.ok d2) :
    d1.map Prod.fst
      = (if normalize_name name ∈ cmds.map Prod.fst then cmds.map Prod.fst
         else cmds.map Prod.fst ++ [normalize_name name])
    ∧ od_get d1 (normalize_name name) = some c
    ∧ d2.map Prod.fst = d1.map Prod.fst
    ∧ od_get d2 (normalize_name name) = some c' := by
  unfold add_command at h1 h2
  split at h1
  · exact absurd h1 (by simp)
  · split at h2
    · exact absurd h2 (by simp)
    · have hd1 : d1 = od_set cmds (normalize_name name) c := by
        injection h1 with h; exact h.symm
      have hd2 : d2 = od_set d1 (normalize_name name') c' := by
        injection h2 with h; exact h.symm
      subst hd1
      subst hd2
      rw [hn]
      refine ⟨od_set_keys .., od_get_set .., ?_, od_get_set ..⟩
      rw [od_set_keys]
      rw [if_pos (od_mem_set_keys ..)]

/-- Witness for C10: adding `"my cmd"` then `"my_cmd"` to an empty command
map stores one entry under `my_cmd` whose value is replaced in place. -/
theorem add_command_replace_in_place_witness :
    let c : Command := ⟨["ls"], []⟩
    let c' : Command := ⟨["cat"], []⟩
    [("my_cmd", c)].map Prod.fst
      = (if normalize_name "my cmd" ∈ ([] : List (String × Command)).map Prod.fst
         then ([] : List (String × Command)).map Prod.fst
         else ([] : List (String × Command)).map Prod.fst ++ [normalize_name "my cmd"])
    ∧ od_get [("my_cmd", c)] (normalize_name "my cmd") = some c
    ∧ [("my_cmd", c')].map Prod.fst = [("my_cmd", c)].map Prod.fst
    ∧ od_get [("my_cmd", c')] (normalize_name "my cmd") = some c' :=
  add_command_replace_in_place [] "my cmd" "my_cmd" ⟨["ls"], []⟩ ⟨["cat"], []⟩
    (by decide) [("my_cmd", ⟨["ls"], []⟩)] [("my_cmd", ⟨["cat"], []⟩)]
    rfl rfl

/-! ### Experiment directory overwrite guard (`Experiment.build`) -/

/-- The wipe decision in `Experiment.build` when the experiment directory
exists: `runs_exist = any(path.startswith('runs') for path in os.listdir)`,
then `tools.overwrite_dir(self.path, overwrite or not runs_exist)`; per the
spec, `tools.overwrite_dir` (not under `src/`) wipes and recreates exactly
when its flag is set. -/
def build_wipes_existing_dir (overwrite : Bool) (entries : List String) : Bool :=
  overwrite || !(entries.any (fun p => p.startsWith "runs"))

/-- C8: an existing experiment directory is wiped and recreated exactly when
`overwrite` is true or no entry in it has a name beginning with the
run-directory prefix `runs`; when such entries exist and `overwrite` is
false, it is preserved. -/
theorem build_wipes_existing_dir_iff (overwrite : Bool) (entries : List String) :
    (build_wipes_existing_dir overwrite entries = true ↔
      (overwrite = true ∨ ∀ e ∈ entries, e.startsWith "runs" = false))
    ∧ (build_wipes_existing_dir overwrite entries = false ↔
      (overwrite = false ∧ ∃ e ∈ entries, e.startsWith "runs" = true)) := by
  constructor
  · simp [build_wipes_existing_dir, List.any_eq_true]
  · cases overwrite <;> simp [build_wipes_existing_dir, List.any_eq_true]

/-! ### Resource materialization (`_Buildable._build_resources`) -/

/-- One filesystem action performed by `_Buildable._build_resources`. -/
inductive BuildAction : Type
  | write_file (dest content : String)
  | symlink (source dest : String)
  | copy (source dest : String)
deriving DecidableEq

/-- Modelled from the spec: `tools.copy` is not under `src/`; per the spec a
required missing copy source is fatal and an optional missing one is skipped,
while an existing source is copied recursively. -/
def tools_copy (fs : String → Bool) (source dest : String) (required : Bool) :
    Except String (List BuildAction) :=
  if fs source then Except.ok [BuildAction.copy source dest]
  else if required then
    Except.error ("The required resource can not be found: " ++ source)
  else Except.ok []

/-- The resources loop of `_Buildable._build_resources`. `fs` is
`os.path.exists`, `rel` abstracts `os.path.relpath` (`_get_rel_path`) and
`path` is the buildable's base directory, so `_get_abs_path(dest)` is
`path ++ "/" ++ dest`. A fatal `logging.critical` is an `Except.error`. -/
def build_resources_loop (fs : String → Bool) (rel : String → String)
    (path : String) : List Resource → Except String (List BuildAction)
  | [] => Except.ok []
  | r :: rest =>
      if r.required && !(fs r.source) then
        Except.error ("The required resource can not be found: " ++ r.source)
      else if r.symlink then
        if !(fs r.source) then build_resources_loop fs rel path rest
        else do
          let acts ← build_resources_loop fs rel path rest
          pure (BuildAction.symlink (rel r.source) (path ++ "/" ++ r.dest) :: acts)
      else do
        let copied ← tools_copy fs r.source (path ++ "/" ++ r.dest) r.required
        let acts ← build_resources_loop fs rel path rest
        pure (copied ++ acts)

/-- The new-files loop of `_Buildable._build_resources`: every synthesized
file is written (this precedes the resources loop). -/
def build_new_files (path : String) (new_files : List NewFile) : List BuildAction :=
  new_files.map (fun f => BuildAction.write_file (path ++ "/" ++ f.dest) f.content)

/-- `_Buildable._build_resources`: write the synthesized files, then resolve
every resource binding in order. -/
def build_resources (fs : String → Bool) (rel : String → String) (path : String)
    (new_files : List NewFile) (resources : List Resource) :
    Except String (List BuildAction) := do
  let acts ← build_resources_loop fs rel path resources
  pure (build_new_files path new_files ++ acts)

/-- Counterexample to C2: a binding with `required = true` and
`symlink = true` whose source is missing is a fatal build error — it is not
silently skipped, so the skip does not apply regardless of the `required`
flag (the `required` check runs first). -/
theorem required_symlink_missing_is_fatal :
    build_resources_loop (fun _ => false) id "/exp"
        [⟨"R", "missing-src", "dst", true, true⟩]
      = Except.error "The required resource can not be found: missing-src" := rfl

/-- C2 (amended): during resource materialization a binding with
`required = true` and a missing source is a fatal build error even when
`symlink = true`; the silent skip applies only to non-required symlink
bindings (`required = false`, `symlink = true`, missing source), for which
the build continues unchanged. -/
theorem build_resources_required_fatal_optional_symlink_skipped
    (fs : String → Bool) (rel : String → String) (path : String)
    (r : Resource) (rest : List Resource) :
    (r.required = true → fs r.source = false →
      build_resources_loop fs rel path (r :: rest)
        = Except.error ("The required resource can not be found: " ++ r.source))
    ∧ (r.required = false → r.symlink = true → fs r.source = false →
      build_resources_loop fs rel path (r :: rest)
        = build_resources_loop fs rel path rest) := by
  constructor
  · intro hreq hmiss
    unfold build_resources_loop
    rw [hreq, hmiss]
    rfl
  · intro hreq hsym hmiss
    conv_lhs => rw [build_resources_loop]
    rw [hreq, hsym, hmiss]
    simp

/-- Witness for the amended C2: with every source missing, a required
symlink binding aborts the build while an optional symlink binding is
skipped and the build continues (producing no action). -/
theorem build_resources_required_fatal_optional_symlink_skipped_witness :
    build_resources_loop (fun _ => false) id "/exp" [⟨"R", "s", "d", true, true⟩]
      = Except.error "The required resource can not be found: s"
    ∧ build_resources_loop (fun _ => false) id "/exp" [⟨"R", "s", "d", false, true⟩]
      = Except.ok [] :=
  ⟨(build_resources_required_fatal_optional_symlink_skipped (fun _ => false) id
      "/exp" ⟨"R", "s", "d", true, true⟩ []).1 rfl rfl,
   ((build_resources_required_fatal_optional_symlink_skipped (fun _ => false) id
      "/exp" ⟨"R", "s", "d", false, true⟩ []).2 rfl rfl rfl).trans rfl⟩

/-! ### Run property file (`Run._build_properties_file`) -/

/-- A property value as stored in a `tools.Properties` store. -/
inductive PropVal : Type
  | str (s : String)
  | num (n : Nat)
  | bool (b : Bool)
  | list (items : List PropVal)

mutual

/-- Python `str()` restricted to property values. -/
def propStr : PropVal → String
  | .str s => s
  | .num n => toString n
  | .bool true => "True"
  | .bool false => "False"
  | .list items => "[" ++ String.intercalate ", " (propReprList items) ++ "]"

/-- Python `repr()` of each element of a list of property values. -/
def propReprList : List PropVal → List String
  | [] => []
  | v :: rest => propRepr v :: propReprList rest

/-- Python `repr()` restricted to property values. -/
def propRepr : PropVal → String
  | .str s => "'" ++ s ++ "'"
  | .num n => toString n
  | .bool true => "True"
  | .bool false => "False"
  | .list items => "[" ++ String.intercalate ", " (propReprList items) ++ "]"

end

/-- `Run._build_properties_file`: a missing `id` property or one that is not
a list/tuple is fatal (`logging.critical`); otherwise `id` is rewritten as a
list of strings (`[str(item) for item in run_id]`) and the derived
`id_string` property (`':'.join(run_id)`) is added, before the generic
property merge. -/
def run_build_properties_file (props : List (String × PropVal)) :
    Except String (List (String × PropVal)) :=
  match od_get props "id" with
  | none => Except.error "Each run must have an id"
  | some v =>
      match v with
      | PropVal.list items =>
          Except.ok (od_set (od_set props "id"
            (PropVal.list (items.map (fun i => PropVal.str (propStr i))))) "id_string"
            (PropVal.str (String.intercalate ":" (items.map propStr))))
      | v => Except.error ("id must be a list, but " ++ propStr v ++ " is not")

/-- Counterexample to C6: an empty list is accepted as `id` — the code never
checks non-emptiness, so `id = []` builds successfully with `id_string` the
empty string instead of failing fatally. -/
theorem empty_id_is_accepted :
    run_build_properties_file [("id", PropVal.list [])]
      = Except.ok [("id", PropVal.list []), ("id_string", PropVal.str "")] := rfl

/-- C6 (amended): building a Run's property file fails fatally iff the `id`
property is missing or is not an ordered sequence (emptiness is not
checked); otherwise `id` is rewritten as the list of its elements coerced to
strings and a derived `id_string` property joins those strings with `:`. -/
theorem run_properties_id_normalization (props : List (String × PropVal)) :
    (od_get props "id" = none →
      run_build_properties_file props = Except.error "Each run must have an id")
    ∧ (∀ items, od_get props "id" = some (PropVal.list items) →
      run_build_properties_file props
        = Except.ok (od_set (od_set props "id"
            (PropVal.list (items.map (fun i => PropVal.str (propStr i))))) "id_string"
            (PropVal.str (String.intercalate ":" (items.map propStr)))))
    ∧ (∀ v, od_get props "id" = some v → (∀ items, v ≠ PropVal.list items) →
      run_build_properties_file props
        = Except.error ("id must be a list, but " ++ propStr v ++ " is not")) := by
  refine ⟨?_, ?_, ?_⟩
  · intro h
    unfold run_build_properties_file
    rw [h]
  · intro items h
    unfold run_build_properties_file
    rw [h]
  · intro v h hnl
    unfold run_build_properties_file
    rw [h]
    cases v with
    | str s => rfl
    | num n => rfl
    | bool b => rfl
    | list items => exact absurd rfl (hnl items)

/-- Witness for the amended C6: a run with `id = ["a", "b"]` builds its
property file with `id` normalized to `["a", "b"]` and `id_string "a:b"`. -/
theorem run_properties_id_normalization_witness :
    run_build_properties_file [("id", PropVal.list [PropVal.str "a", PropVal.str "b"])]
      = Except.ok [("id", PropVal.list [PropVal.str "a", PropVal.str "b"]),
          ("id_string", PropVal.str "a:b")] :=
  ((run_properties_id_normalization
      [("id", PropVal.list [PropVal.str "a", PropVal.str "b"])]).2.1
    [PropVal.str "a", PropVal.str "b"] rfl).trans rfl

/-! ### Run script generation (`Run._build_run_script`) -/

/-- `DEFAULT_ABORT_ON_FAILURE = False` (module-level constant). -/
def DEFAULT_ABORT_ON_FAILURE : PyVal := PyVal.bool false

/-- Python `del d[k]` on a dict: drop the entry under `k`. -/
def dict_del {V : Type} (d : List (String × V)) (k : String) : List (String × V) :=
  d.filter (fun p => !(p.1 == k))

/-- Python `d.pop(k, default)`: remove and return the value under `k`, or
the default when the key is absent (the dict object is mutated in place). -/
def dict_pop (d : Kwargs) (k : String) (default : PyVal) : PyVal × Kwargs :=
  match od_get d k with
  | some v => (v, dict_del d k)
  | none => (default, d)

/-- Python `d.setdefault(k, v)`: insert `v` under `k` when the key is absent
(the dict object is mutated in place). -/
def dict_setdefault (d : Kwargs) (k : String) (v : PyVal) : Kwargs :=
  match od_get d k with
  | some _ => d
  | none => d ++ [(k, v)]

/-- Python `d1.update(d2)`: `d2`'s entries override `d1`'s. -/
def dict_update {V : Type} (d1 d2 : List (String × V)) : List (String × V) :=
  d2.foldl (fun acc p => od_set acc p.1 p.2) d1

/-- `_Buildable._env_vars`: the name→absolute-path bindings of one
buildable, from its new files and then its resources
(`env_vars[name] = self._get_abs_path(dest)`). -/
def env_vars_of (path : String) (new_files : List NewFile)
    (resources : List Resource) : List (String × String) :=
  resources.foldl (fun d r => od_set d r.name (path ++ "/" ++ r.dest))
    (new_files.foldl (fun d f => od_set d f.name (path ++ "/" ++ f.dest)) [])

/-- `format_arg` in `Run._build_run_script`:
`arg if arg in env_vars else '"%s"' % arg`. -/
def format_arg (env : List (String × String)) (arg : String) : String :=
  if env.any (fun p => p.1 == arg) then arg else "\"" ++ arg ++ "\""

/-- `format_key_value_pair` in `Run._build_run_script`:
`'%s=%s' % (key, val if val in env_vars else repr(val))` (only a string
value can be a dict key, hence match a binding name). -/
def format_key_value_pair (env : List (String × String)) (key : String)
    (val : PyVal) : String :=
  key ++ "=" ++ (match val with
    | PyVal.str s => if env.any (fun p => p.1 == s) then s else pyRepr val
    | v => pyRepr v)

/-- `cmd_string` in `make_call`:
`'[%s]' % ', '.join([format_arg(arg) for arg in cmd])`. -/
def cmd_string (env : List (String × String)) (argv : List String) : String :=
  "[" ++ String.intercalate ", " (argv.map (format_arg env)) ++ "]"

/-- The invocation plus exit-code capture emitted for one command:
`'retcode = Call(%s, name="%s", **redirects).wait()\nsave_returncode("%s", retcode)\n'`. -/
def call_and_save (parts name : String) : String :=
  "retcode = Call(" ++ parts ++ ", name=\"" ++ name
    ++ "\", **redirects).wait()\nsave_returncode(\"" ++ name ++ "\", retcode)\n"

/-- The early-termination block appended for an `abort_on_failure` command:
`'if not retcode == 0:\n    print_(driver_err, "%s returned %%s" %% retcode)\n    sys.exit(1)\n'`. -/
def abort_block (name : String) : String :=
  "if not retcode == 0:\n    print_(driver_err, \"" ++ name
    ++ " returned %s\" % retcode)\n    sys.exit(1)\n"

/-- `make_call` in `Run._build_run_script`: pops `abort_on_failure` (default
false) out of the command's kwargs, on a local environment inserts a default
`check_interval=0.5`, assembles the invocation text, and appends the abort
block when the popped flag is truthy. Returns the text together with the
mutated kwargs dict (the Python code mutates the dict stored in
`self.commands` in place). -/
def make_call (env : List (String × String)) (is_local : Bool) (name : String)
    (c : Command) : String × Kwargs :=
  let pop := dict_pop c.kwargs "abort_on_failure" DEFAULT_ABORT_ON_FAILURE
  let kwargs := if is_local then
      dict_setdefault pop.2 "check_interval" (PyVal.numLit "0.5")
    else pop.2
  let kwargs_string :=
    String.intercalate ", " (kwargs.map (fun p => format_key_value_pair env p.1 p.2))
  let parts := if kwargs_string = "" then cmd_string env c.argv
    else cmd_string env c.argv ++ ", " ++ kwargs_string
  let call := call_and_save parts name
  (if pyTruthy pop.1 then call ++ abort_block name else call, kwargs)

/-- The loop producing `calls_text` in `Run._build_run_script`: one
`make_call` per stored command, in insertion order updating the stored
kwargs dict of each command in place. -/
def build_calls (env : List (String × String)) (is_local : Bool) :
    List (String × Command) → List String × List (String × Command)
  | [] => ([], [])
  | (name, c) :: rest =>
      let mc := make_call env is_local name c
      let bc := build_calls env is_local rest
      (mc.1 :: bc.1, (name, ⟨c.argv, mc.2⟩) :: bc.2)

/-- `Run._build_run_script`: fatal on a run with no commands
(`raise SystemExit('Please add at least one command')`); otherwise returns
the joined calls text and the command map after the in-place kwargs
mutation. -/
def build_run_script (env : List (String × String)) (is_local : Bool)
    (commands : List (String × Command)) :
    Except String (String × List (String × Command)) :=
  if commands.isEmpty then Except.error "Please add at least one command"
  else
    let bc := build_calls env is_local commands
    Except.ok (String.intercalate "\n" bc.1, bc.2)

/-- The abort flag each command's block is generated under. -/
def abort_flags (cs : List (String × Command)) : List (String × Bool) :=
  cs.map (fun p =>
    (p.1, pyTruthy ((od_get p.2.kwargs "abort_on_failure").getD
      DEFAULT_ABORT_ON_FAILURE)))

/-- Modelled from the spec: execution semantics of the generated run script
(the `run-template.py` scaffold it is substituted into is not under `src/`):
command blocks execute in order, and a block whose abort flag is set and
whose command exited nonzero terminates the whole script immediately
(`sys.exit(1)`). -/
def script_exec (exit_codes : String → Int) : List (String × Bool) → List String
  | [] => []
  | (name, ab) :: rest =>
      name :: (if ab && decide (exit_codes name ≠ 0) then []
               else script_exec exit_codes rest)

theorem od_get_set_iff {V : Type} (d : List (String × V)) (k k' : String) (v : V) :
    od_get (od_set d k v) k' = if k = k' then some v else od_get d k' := by
  induction d with
  | nil =>
      by_cases h : k = k' <;> simp [od_set, od_get, h]
  | cons p rest ih =>
      obtain ⟨k0, v0⟩ := p
      by_cases h0 : k0 = k
      · subst h0
        by_cases h : k0 = k' <;> simp [od_set, od_get, h]
      · simp only [od_set, if_neg h0]
        by_cases h : k0 = k'
        · subst h
          rw [if_neg (fun hkk => h0 hkk.symm)]
          simp [od_get]
        · simp [od_get, h, ih]

theorem dict_del_of_get_none {V : Type} (d : List (String × V)) (k : String)
    (h : od_get d k = none) : dict_del d k = d := by
  induction d with
  | nil => rfl
  | cons p rest ih =>
      obtain ⟨k0, v0⟩ := p
      by_cases h0 : k0 = k
      · simp [od_get, h0] at h
      · simp only [od_get, if_neg h0] at h
        have hr := ih h
        simp only [dict_del] at hr ⊢
        simp [List.filter_cons, h0, hr]

theorem od_get_dict_del {V : Type} (d : List (String × V)) (k : String) :
    od_get (dict_del d k) k = none := by
  induction d with
  | nil => rfl
  | cons p rest ih =>
      obtain ⟨k0, v0⟩ := p
      simp only [dict_del] at ih ⊢
      by_cases h0 : k0 = k
      · simpa [List.filter_cons, h0] using ih
      · simpa [List.filter_cons, h0, od_get] using ih

theorem od_get_isSome_iff_any {V : Type} (d : List (String × V)) (k : String) :
    (od_get d k).isSome = d.any (fun p => p.1 == k) := by
  induction d with
  | nil => rfl
  | cons p rest ih =>
      obtain ⟨k0, v0⟩ := p
      by_cases h0 : k0 = k <;> simp [od_get, h0, ih]

theorem build_calls_fst (env : List (String × String)) (is_local : Bool)
    (cs : List (String × Command)) :
    (build_calls env is_local cs).1
      = cs.map (fun p => (make_call env is_local p.1 p.2).1) := by
  induction cs with
  | nil => rfl
  | cons p rest ih =>
      obtain ⟨n, c⟩ := p
      simp [build_calls, ih]

theorem pyTruthy_default : pyTruthy DEFAULT_ABORT_ON_FAILURE = false := rfl

theorem make_call_abort_decomp (env : List (String × String)) (is_local : Bool)
    (name : String) (c : Command) :
    (make_call env is_local name c).1
      = (make_call env is_local name ⟨c.argv, dict_del c.kwargs "abort_on_failure"⟩).1
        ++ (if pyTruthy ((od_get c.kwargs "abort_on_failure").getD
              DEFAULT_ABORT_ON_FAILURE) then abort_block name else "") := by
  cases h : od_get c.kwargs "abort_on_failure" with
  | none =>
      rw [dict_del_of_get_none _ _ h]
      simp [make_call, dict_pop, h, pyTruthy_default, String.append_empty]
  | some v =>
      have h2 : od_get (dict_del c.kwargs "abort_on_failure") "abort_on_failure"
          = none := od_get_dict_del ..
      simp only [make_call, dict_pop, h, h2, Option.getD_some]
      by_cases hb : pyTruthy v = true
      · simp [hb, pyTruthy_default]
      · simp only [hb, pyTruthy_default, Bool.false_eq_true, if_false,
          String.append_empty]

theorem make_call_shape (env : List (String × String)) (is_local : Bool)
    (name : String) (c : Command)
    (h : od_get c.kwargs "abort_on_failure" = none) :
    ∃ parts, (make_call env is_local name c).1 = call_and_save parts name := by
  simp only [make_call, dict_pop, h, pyTruthy_default, Bool.false_eq_true,
    if_false]
  exact ⟨_, rfl⟩

theorem script_exec_no_abort (exit_codes : String → Int)
    (cs : List (String × Command))
    (h : ∀ p ∈ cs, od_get p.2.kwargs "abort_on_failure" = none) :
    script_exec exit_codes (abort_flags cs) = cs.map Prod.fst := by
  induction cs with
  | nil => rfl
  | cons p rest ih =>
      obtain ⟨n, c⟩ := p
      have hp : od_get c.kwargs "abort_on_failure" = none :=
        h (n, c) (List.mem_cons_self ..)
      have hrest := ih (fun q hq => h q (List.mem_cons_of_mem _ hq))
      simp [abort_flags, script_exec, hp, DEFAULT_ABORT_ON_FAILURE, pyTruthy,
        abort_flags] at hrest ⊢
      exact hrest

/-- C4: the generated run script invokes the commands in insertion order;
each command's block is the invocation recording its exit code under the
command's name, followed by an early-termination block exactly when the
command was declared with a truthy `abort_on_failure` (whose default,
when the option is not given, is false); and under the generated-script
semantics a failing command without the flag never prevents later commands,
while a failing command with the flag terminates the script immediately. -/
theorem run_script_order_and_abort (env : List (String × String))
    (is_local : Bool) (cs : List (String × Command)) (exit_codes : String → Int) :
    (build_calls env is_local cs).1
        = cs.map (fun p => (make_call env is_local p.1 p.2).1)
    ∧ (∀ name c, (make_call env is_local name c).1
        = (make_call env is_local name ⟨c.argv, dict_del c.kwargs "abort_on_failure"⟩).1
          ++ (if pyTruthy ((od_get c.kwargs "abort_on_failure").getD
                DEFAULT_ABORT_ON_FAILURE) then abort_block name else ""))
    ∧ (∀ (name : String) (c : Command), ∃ parts,
        (make_call env is_local name
            ⟨c.argv, dict_del c.kwargs "abort_on_failure"⟩).1
          = call_and_save parts name)
    ∧ ((∀ p : String × Command, p ∈ cs →
          od_get p.2.kwargs "abort_on_failure" = none) →
        script_exec exit_codes (abort_flags cs) = cs.map Prod.fst)
    ∧ (∀ name rest, exit_codes name ≠ 0 →
        script_exec exit_codes ((name, true) :: rest) = [name])
    ∧ (∀ name rest, exit_codes name = 0 →
        script_exec exit_codes ((name, true) :: rest)
          = name :: script_exec exit_codes rest) := by
  refine ⟨build_calls_fst env is_local cs,
    fun name c => make_call_abort_decomp env is_local name c, ?_,
    script_exec_no_abort exit_codes cs, ?_, ?_⟩
  · intro name c
    exact make_call_shape env is_local name ⟨c.argv, dict_del c.kwargs "abort_on_failure"⟩
      (od_get_dict_del ..)
  · intro name rest h
    simp [script_exec, h]
  · intro name rest h
    simp [script_exec, h]

/-- Witness for C4: a concrete two-command run where `c1` is declared with
`abort_on_failure=True`: if `c1` exits nonzero only `c1` executes; if every
exit code is 0 both execute; with no abort flags a failing `c1` does not
prevent `c2`. -/
theorem run_script_order_and_abort_witness :
    (build_calls [] false
        [("c1", ⟨["x"], [("abort_on_failure", PyVal.bool true)]⟩),
         ("c2", ⟨["y"], []⟩)]).1
      = [("c1", Command.mk ["x"] [("abort_on_failure", PyVal.bool true)]),
         ("c2", Command.mk ["y"] [])].map
          (fun p => (make_call [] false p.1 p.2).1)
    ∧ script_exec (fun n => if n = "c1" then 1 else 0)
        (abort_flags [("c1", ⟨["x"], [("abort_on_failure", PyVal.bool true)]⟩),
          ("c2", ⟨["y"], []⟩)]) = ["c1"]
    ∧ script_exec (fun _ => 0)
        (abort_flags [("c1", ⟨["x"], [("abort_on_failure", PyVal.bool true)]⟩),
          ("c2", ⟨["y"], []⟩)]) = ["c1", "c2"]
    ∧ script_exec (fun _ => 1)
        (abort_flags [("c1", ⟨["x"], []⟩), ("c2", ⟨["y"], []⟩)])
      = ["c1", "c2"] := by
  refine ⟨(run_script_order_and_abort [] false
      [("c1", ⟨["x"], [("abort_on_failure", PyVal.bool true)]⟩),
       ("c2", ⟨["y"], []⟩)] (fun _ => 0)).1, ?_, ?_, ?_⟩
  · have h := (run_script_order_and_abort [] false []
      (fun n => if n = "c1" then 1 else 0)).2.2.2.2.1 "c1" [("c2", false)]
      (by decide)
    exact h.trans rfl
  · have h := (run_script_order_and_abort [] false []
      (fun _ => (0 : Int))).2.2.2.2.2 "c1" [("c2", false)] rfl
    exact h.trans rfl
  · have h := (run_script_order_and_abort [] false
      [("c1", ⟨["x"], []⟩), ("c2", ⟨["y"], []⟩)] (fun _ => 1)).2.2.2.1
      (by decide)
    exact h.trans rfl

theorem od_get_eq_none_of_not_mem {V : Type} (d : List (String × V)) (k : String)
    (h : k ∉ d.map Prod.fst) : od_get d k = none := by
  induction d with
  | nil => rfl
  | cons p rest ih =>
      obtain ⟨k0, v0⟩ := p
      simp only [List.map_cons, List.mem_cons] at h
      push_neg at h
      have hne : ¬ k0 = k := fun hh => h.1 hh.symm
      simp only [od_get, if_neg hne]
      exact ih h.2

theorem od_get_dict_update {V : Type} (d1 d2 : List (String × V)) (k : String)
    (hnd : (d2.map Prod.fst).Nodup) :
    od_get (dict_update d1 d2) k = (od_get d2 k).or (od_get d1 k) := by
  induction d2 generalizing d1 with
  | nil => simp [dict_update, od_get, Option.or]
  | cons p rest ih =>
      obtain ⟨k0, v0⟩ := p
      simp only [List.map_cons, List.nodup_cons] at hnd
      simp only [dict_update, List.foldl_cons]
      rw [show (rest.foldl (fun acc p => od_set acc p.1 p.2) (od_set d1 k0 v0))
            = dict_update (od_set d1 k0 v0) rest from rfl]
      rw [ih (od_set d1 k0 v0) hnd.2]
      by_cases h : k0 = k
      · subst h
        rw [od_get_eq_none_of_not_mem rest k0 hnd.1, od_get_set_iff, if_pos rfl]
        simp [od_get, Option.or]
      · rw [od_get_set_iff, if_neg h]
        simp [od_get, h]

theorem od_get_foldl_set {β : Type} (key val : β → String) (l : List β)
    (d0 : List (String × String)) (k : String) (v : String)
    (h : od_get (l.foldl (fun d b => od_set d (key b) (val b)) d0) k = some v) :
    (∃ b ∈ l, key b = k ∧ val b = v) ∨ od_get d0 k = some v := by
  induction l generalizing d0 with
  | nil => exact Or.inr h
  | cons b rest ih =>
      simp only [List.foldl_cons] at h
      rcases ih _ h with hmem | hbase
      · obtain ⟨b', hb', hkv⟩ := hmem
        exact Or.inl ⟨b', List.mem_cons_of_mem _ hb', hkv⟩
      · rw [od_get_set_iff] at hbase
        by_cases hk : key b = k
        · refine Or.inl ⟨b, List.mem_cons_self .., hk, ?_⟩
          rw [if_pos hk] at hbase
          exact Option.some.inj hbase
        · rw [if_neg hk] at hbase
          exact Or.inr hbase

theorem env_vars_of_values (path : String) (nfs : List NewFile)
    (rs : List Resource) (k v : String)
    (h : od_get (env_vars_of path nfs rs) k = some v) :
    (∃ r ∈ rs, r.name = k ∧ v = path ++ "/" ++ r.dest)
    ∨ (∃ f ∈ nfs, f.name = k ∧ v = path ++ "/" ++ f.dest) := by
  unfold env_vars_of at h
  rcases od_get_foldl_set (fun r : Resource => r.name)
      (fun r => path ++ "/" ++ r.dest) rs _ k v h with h1 | h2
  · obtain ⟨r, hr, hname, hval⟩ := h1
    exact Or.inl ⟨r, hr, hname, hval.symm⟩
  · rcases od_get_foldl_set (fun f : NewFile => f.name)
        (fun f => path ++ "/" ++ f.dest) nfs [] k v h2 with h3 | h4
    · obtain ⟨f, hf, hname, hval⟩ := h3
      exact Or.inr ⟨f, hf, hname, hval.symm⟩
    · exact absurd h4 (by simp [od_get])

theorem format_arg_eq (env : List (String × String)) (arg : String) :
    format_arg env arg
      = if (od_get env arg).isSome then arg else "\"" ++ arg ++ "\"" := by
  rw [format_arg, od_get_isSome_iff_any]

/-- C5: the bindings available to a run script are the Experiment's merged
with the Run's own, the Run's winning on name collision; an argument token
equal to a binding name is emitted unquoted (otherwise as a quoted literal);
the emitted invocation applies this formatting to every argv token; and each
binding of a buildable resolves to its declared destination under the
buildable's path. -/
theorem run_script_env_merge_and_substitution
    (exp_env run_env env : List (String × String))
    (hnodup : (run_env.map Prod.fst).Nodup)
    (path : String) (nfs : List NewFile) (rs : List Resource) :
    (∀ k, od_get (dict_update exp_env run_env) k
        = (od_get run_env k).or (od_get exp_env k))
    ∧ (∀ arg, format_arg env arg
        = if (od_get env arg).isSome then arg else "\"" ++ arg ++ "\"")
    ∧ (∀ (name : String) (argv : List String),
        (make_call env false name ⟨argv, []⟩).1
          = call_and_save (cmd_string env argv) name)
    ∧ (∀ k v, od_get (env_vars_of path nfs rs) k = some v →
        (∃ r ∈ rs, r.name = k ∧ v = path ++ "/" ++ r.dest)
        ∨ (∃ f ∈ nfs, f.name = k ∧ v = path ++ "/" ++ f.dest)) := by
  refine ⟨fun k => od_get_dict_update exp_env run_env k hnodup,
    fun arg => format_arg_eq env arg, fun name argv => ?_,
    fun k v h => env_vars_of_values path nfs rs k v h⟩
  rfl

/-- Witness for C5: with experiment bindings `LAB`, `X` and a run binding
`X`, the run's `X` wins; the token `X` is emitted unquoted and `plan.out`
quoted; a concrete invocation renders `[X, "plan.out"]`; and a resource
binding `R → dst` of a buildable at `/run` resolves to `/run/dst`. -/
theorem run_script_env_merge_and_substitution_witness :
    od_get (dict_update [("LAB", "/e/lab"), ("X", "/e/x")] [("X", "/r/x")]) "X"
      = some "/r/x"
    ∧ format_arg (dict_update [("LAB", "/e/lab"), ("X", "/e/x")] [("X", "/r/x")]) "X"
      = "X"
    ∧ format_arg (dict_update [("LAB", "/e/lab"), ("X", "/e/x")] [("X", "/r/x")])
        "plan.out" = "\"plan.out\""
    ∧ (make_call (dict_update [("LAB", "/e/lab"), ("X", "/e/x")] [("X", "/r/x")])
        false "run1" ⟨["X", "plan.out"], []⟩).1
      = call_and_save
          (cmd_string (dict_update [("LAB", "/e/lab"), ("X", "/e/x")] [("X", "/r/x")])
            ["X", "plan.out"]) "run1"
    ∧ ((∃ r ∈ [Resource.mk "R" "src" "dst" true false], r.name = "R"
          ∧ "/run/dst" = "/run" ++ "/" ++ r.dest)
       ∨ (∃ f ∈ ([] : List NewFile), f.name = "R"
          ∧ "/run/dst" = "/run" ++ "/" ++ f.dest)) := by
  have h := run_script_env_merge_and_substitution
    [("LAB", "/e/lab"), ("X", "/e/x")] [("X", "/r/x")]
    (dict_update [("LAB", "/e/lab"), ("X", "/e/x")] [("X", "/r/x")])
    (by decide) "/run" [] [Resource.mk "R" "src" "dst" true false]
  refine ⟨(h.1 "X").trans rfl, (h.2.1 "X").trans (by decide),
    (h.2.1 "plan.out").trans (by decide), h.2.2.1 "run1" ["X", "plan.out"],
    h.2.2.2 "R" "/run/dst" (by decide)⟩

/-- Counterexample to C9: the fatal message emitted for a run with zero
commands is the fixed string `Please add at least one command` — it does not
mention the run's id (the script builder does not even receive the run's
properties), here evaluated for a run holding a `DOMAIN` binding. -/
theorem empty_run_fatal_message_is_constant :
    build_run_script [("DOMAIN", "/exp/runs-00001-00100/00001/domain.pddl")]
        false []
      = Except.error "Please add at least one command" := rfl

/-- C9 (amended): building a Run with zero commands fails fatally instead of
emitting a no-op script, with the fixed message
`Please add at least one command` (which does not identify the offending
run); a run with at least one command yields a script. -/
theorem build_run_script_empty_fatal (env : List (String × String))
    (is_local : Bool) (cs : List (String × Command)) :
    (cs = [] → build_run_script env is_local cs
        = Except.error "Please add at least one command")
    ∧ (cs ≠ [] → ∃ out, build_run_script env is_local cs = Except.ok out) := by
  constructor
  · intro h
    subst h
    rfl
  · intro h
    cases cs with
    | nil => exact absurd rfl h
    | cons p rest => exact ⟨_, rfl⟩

/-- Witness for the amended C9: an empty run fails fatally with the fixed
message; a one-command run builds a script. -/
theorem build_run_script_empty_fatal_witness :
    build_run_script [] false [] = Except.error "Please add at least one command"
    ∧ ∃ out, build_run_script [] false [("c", Command.mk ["x"] [])]
        = Except.ok out :=
  ⟨(build_run_script_empty_fatal [] false []).1 rfl,
   (build_run_script_empty_fatal [] false [("c", Command.mk ["x"] [])]).2
     (by simp)⟩

/-- C3 evidence: rebuilding the same run — exactly what
`build(overwrite=True)` twice does — does not reproduce the first run
script. `make_call` pops `abort_on_failure` out of the kwargs dict stored in
`self.commands`, so the second build generates the same command's block
without the early-termination section, and the two scripts differ. -/
theorem rebuild_loses_abort_block :
    (build_calls [] false
        [("solve", ⟨["planner"], [("abort_on_failure", PyVal.bool true)]⟩)]).1
      = [call_and_save (cmd_string [] ["planner"]) "solve" ++ abort_block "solve"]
    ∧ (build_calls [] false (build_calls [] false
        [("solve", ⟨["planner"], [("abort_on_failure", PyVal.bool true)]⟩)]).2).1
      = [call_and_save (cmd_string [] ["planner"]) "solve"]
    ∧ (build_calls [] false
        [("solve", ⟨["planner"], [("abort_on_failure", PyVal.bool true)]⟩)]).1
      ≠ (build_calls [] false (build_calls [] false
        [("solve", ⟨["planner"], [("abort_on_failure", PyVal.bool true)]⟩)]).2).1 := by
  refine ⟨rfl, rfl, ?_⟩
  decide

end Lab
